import Mathlib

/-!
Shallow embedding of the Battleship rules engine (first engine variant of the
repository: PLAYER, ShipPiece, BattleShipBoard, BattleShipPlayer,
BattleShipGame, BattleShipRules and the event/command/control vocabularies).

Conventions of the embedding:
* TypeScript numbers that the code compares against `0`/bounds are embedded as
  `Int` (board coordinates, ship ids, damage parts); sizes coming from the
  configuration are `Nat`.
* The value `undefined` obtained by reading an array out of range is embedded
  as `Option.none`; `ShipPiece.size` is an `Option Nat` because
  `BattleShipRules.processUnselect` reads
  `shipSizeSequence[shipSizeIterator]`, which is `undefined` once the
  iterator has reached the end of the sequence.  A `none` size reproduces the
  JavaScript `NaN` semantics of `(size - 1) / 2`: every comparison against
  `NaN` is false, so both loops of `settleShip` run zero iterations and the
  settle trivially succeeds, and in `receiveDamage` the checks
  `part >= ship.size` and `ship.damage === ship.size` are false.
* Exceptions are embedded as `Except`; since the mutable objects survive a
  thrown exception, every fallible operation returns the state of its object
  at throw time alongside the error (`Except (BSError × σ) ...`).
* Reading a missing cell (`this.board[x][pos]` out of range) throws a
  `TypeError` in JavaScript; this is the `BSError.undefinedAccess` failure.
-/

namespace BattleShip

/-- Player identifier (const enum PLAYER, numeric members P1 = 0, P2 = 1). -/
inductive PLAYER where
  | P1
  | P2
deriving DecidableEq, Repr

/-- Orientation of a ship (const enum ORIENTATION, HORIZONTAL = 0, VERTICAL = 1). -/
inductive ORIENTATION where
  | HORIZONTAL
  | VERTICAL
deriving DecidableEq, Repr

/-- Board positions are pairs of integers (x, y). -/
abbrev BoardPosition := Int × Int

/-- Numeric rendering of the const enum PLAYER used by template strings. -/
def PLAYER.str : PLAYER → String
  | .P1 => "0"
  | .P2 => "1"

/-- Numeric rendering of the const enum ORIENTATION used by template strings. -/
def ORIENTATION.str : ORIENTATION → String
  | .HORIZONTAL => "0"
  | .VERTICAL => "1"

/-- Rendering of a BoardPosition array by a template string (Array.toString). -/
def posStr (p : BoardPosition) : String :=
  toString p.1 ++ "," ++ toString p.2

/-- Rendering of a possibly-undefined ship size by a template string. -/
def sizeStr : Option Nat → String
  | none => "undefined"
  | some n => toString n

/-- Error taxonomy: one constructor per distinct throw site of the engine,
plus `undefinedAccess` for the JavaScript TypeError raised by reading a
property of `undefined` (a missing board cell). -/
inductive BSError where
  | posOutOfBounds (shipId : Int)
  | extentOutOfBounds (shipId : Int) (size : Nat)
  | occupied (shipId : Int) (size : Nat)
  | attackOutOfBounds (x y : Int)
  | alreadyAttacked (x y : Int)
  | invalidShipId (shipId : Int)
  | invalidPart
  | alreadyDamaged (part shipId : Int)
  | undefinedAccess
deriving DecidableEq, Repr

/-- Message carried by each thrown Error, mirroring the template strings of the
source (the `undefinedAccess` message stands for the engine-generated
TypeError text). -/
def BSError.message : BSError → String
  | .posOutOfBounds shipId => s!"Ship {shipId} position out of board bounds"
  | .extentOutOfBounds shipId size => s!"Ship {shipId} with size {size} out of bounds."
  | .occupied shipId size => s!"Ship {shipId} with size {size} already occupied."
  | .attackOutOfBounds x y => s!"Attack position ({x}, {y}) out of bounds"
  | .alreadyAttacked x y => s!"Attack position ({x}, {y}) already attacked"
  | .invalidShipId shipId => s!"Invalid ship id {shipId}"
  | .invalidPart => "Damage location is not within ship limits"
  | .alreadyDamaged part shipId => s!"Part {part} of ship {shipId} is already damaged"
  | .undefinedAccess => "TypeError: cannot read property of undefined"

/-- Failure categories named by the specification that correspond to the
out-of-bounds throw sites of `BattleShipBoard.settleShip`. -/
def BSError.isOutOfBounds : BSError → Bool
  | .posOutOfBounds _ => true
  | .extentOutOfBounds _ _ => true
  | _ => false

/-- Ship piece: identity, size, orientation, anchor position and damage
record.  The constructor loop `for (i = 0; i < size; i++) damaged.push(false)`
runs zero iterations when the size is `undefined`. -/
structure ShipPiece where
  id : Int
  size : Option Nat
  orientation : ORIENTATION
  position : BoardPosition
  damaged : List Bool
  damage : Nat
deriving DecidableEq, Repr

/-- Constructor of ShipPiece (`new ShipPiece(idx, size, orientation, position)`). -/
def ShipPiece.make (idx : Int) (size : Option Nat) (orientation : ORIENTATION)
    (position : BoardPosition) : ShipPiece :=
  { id := idx
    size := size
    orientation := orientation
    position := position
    damaged := List.replicate (size.getD 0) false
    damage := 0 }

/-- Cell content: water, or a ship segment carrying (shipId, shipPart). -/
inductive CellKind where
  | WATER
  | SHIP (shipId : Int) (shipPart : Int)
deriving DecidableEq, Repr

/-- Board cell: tagged content plus the attacked flag (default false). -/
structure BoardCell where
  cellKind : CellKind
  attacked : Bool
deriving DecidableEq, Repr

/-- Fresh water cell (`new WaterBoardCell()`). -/
def waterCell : BoardCell := { cellKind := .WATER, attacked := false }

/-- Fresh ship cell (`new ShipBoardCell(shipId, shipPart)`). -/
def shipCell (shipId shipPart : Int) : BoardCell :=
  { cellKind := .SHIP shipId shipPart, attacked := false }

/-- Battleship board: a grid of cells plus the configured board size. -/
structure Board where
  board : List (List BoardCell)
  boardSize : Nat
deriving DecidableEq, Repr

/-- Board initially filled with water (`initBoard`). -/
def Board.init (boardSize : Nat) : Board :=
  { board := List.replicate boardSize (List.replicate boardSize waterCell)
    boardSize := boardSize }

/-- Reading `this.board[x][y]`: `none` when either index misses (the JS value
`undefined`, whose property reads throw). -/
def Board.cell (b : Board) (x y : Int) : Option BoardCell :=
  if x < 0 ∨ y < 0 then none
  else (b.board[x.toNat]?).bind fun row => row[y.toNat]?

/-- Writing `this.board[x][y] = c`.  Out-of-range writes are unreachable in
the engine (every write site is dominated by the bounds and occupancy checks),
so they are embedded as no-ops. -/
def Board.setCell (b : Board) (x y : Int) (c : BoardCell) : Board :=
  if x < 0 ∨ y < 0 then b
  else
    match b.board[x.toNat]? with
    | none => b
    | some row => { b with board := b.board.set x.toNat (row.set y.toNat c) }

/-- Well-formed board: the grid really is boardSize × boardSize. -/
def Board.WF (b : Board) : Prop :=
  b.board.length = b.boardSize ∧ ∀ row ∈ b.board, row.length = b.boardSize

instance (b : Board) : Decidable b.WF := by
  unfold Board.WF; infer_instance

/-- Occupied run of a ship of size `size`: `size` consecutive cells centered
on the anchor along the orientation axis (the loop bounds
`anchor - (size-1)/2 .. anchor + (size-1)/2` of the source, unrolled). -/
def craftCells (position : BoardPosition) (orientation : ORIENTATION) (size : Nat) :
    List (Int × Int) :=
  let h : Int := ((size : Int) - 1) / 2
  match orientation with
  | .HORIZONTAL =>
    (List.range size).map fun (i : Nat) => (position.1, position.2 - h + (i : Int))
  | .VERTICAL =>
    (List.range size).map fun (i : Nat) => (position.1 - h + (i : Int), position.2)

/-- Occupancy check loop of `settleShip`: reads each run cell and fails on the
first ship cell (or on a missing cell, where the source would throw a
TypeError).  It never writes. -/
def checkOccupied (b : Board) (shipId : Int) (size : Nat) :
    List (Int × Int) → Option BSError
  | [] => none
  | (cx, cy) :: rest =>
    match b.cell cx cy with
    | none => some .undefinedAccess
    | some c =>
      match c.cellKind with
      | .SHIP _ _ => some (.occupied shipId size)
      | .WATER => checkOccupied b shipId size rest

/-- Marking loop of `settleShip`: replaces each run cell by a fresh ship cell
whose shipPart is the loop variable `pos`, i.e. the absolute coordinate of the
cell along the orientation axis (NOT the index along the ship). -/
def markCells (shipId : Int) (orientation : ORIENTATION) :
    Board → List (Int × Int) → Board
  | b, [] => b
  | b, (cx, cy) :: rest =>
    let part := match orientation with
      | .HORIZONTAL => cy
      | .VERTICAL => cx
    markCells shipId orientation (b.setCell cx cy (shipCell shipId part)) rest

/-- Settle a ship on the board (`BattleShipBoard.settleShip`).  Failures carry
the state of the board at throw time.  Note the anchor check uses `y >
boardSize` (not `>=`), and a `none` (undefined) size short-circuits every
check and loop via NaN semantics, succeeding without touching the board. -/
def Board.settleShip (b : Board) (ship : ShipPiece) : Except (BSError × Board) Board :=
  let x := ship.position.1
  let y := ship.position.2
  let bs : Int := (b.boardSize : Int)
  if x < 0 ∨ x ≥ bs ∨ y < 0 ∨ y > bs then
    .error (.posOutOfBounds ship.id, b)
  else
    match ship.size with
    | none => .ok b
    | some size =>
      let h : Int := ((size : Int) - 1) / 2
      match ship.orientation with
      | .HORIZONTAL =>
        if y - h < 0 ∨ y + h ≥ bs then
          .error (.extentOutOfBounds ship.id size, b)
        else
          match checkOccupied b ship.id size (craftCells ship.position .HORIZONTAL size) with
          | some e => .error (e, b)
          | none => .ok (markCells ship.id .HORIZONTAL b (craftCells ship.position .HORIZONTAL size))
      | .VERTICAL =>
        if x - h < 0 ∨ x + h ≥ bs then
          .error (.extentOutOfBounds ship.id size, b)
        else
          match checkOccupied b ship.id size (craftCells ship.position .VERTICAL size) with
          | some e => .error (e, b)
          | none => .ok (markCells ship.id .VERTICAL b (craftCells ship.position .VERTICAL size))

/-- Attack a board position (`BattleShipBoard.attack`).  On success returns
the optional (shipId, shipPart) of the hit segment and the updated board. -/
def Board.attack (b : Board) (target : BoardPosition) :
    Except (BSError × Board) (Option (Int × Int) × Board) :=
  let x := target.1
  let y := target.2
  let bs : Int := (b.boardSize : Int)
  if x < 0 ∨ y < 0 ∨ x ≥ bs ∨ y ≥ bs then
    .error (.attackOutOfBounds x y, b)
  else
    match b.cell x y with
    | none => .error (.undefinedAccess, b)
    | some c =>
      if c.attacked then
        .error (.alreadyAttacked x y, b)
      else
        let b' := b.setCell x y { c with attacked := true }
        match c.cellKind with
        | .SHIP sid part => .ok (some (sid, part), b')
        | .WATER => .ok (none, b')

/-- Player-specific state: roster of ships and the live-ship counter.  The two
boards a player references are owned by the game (the cross-wiring
`p1.pinBoard === p2.shipBoard` is embedded by storing the two physical boards
in `BattleShipGame` and passing the relevant one to each operation). -/
structure BattleShipPlayer where
  playerId : PLAYER
  ships : List ShipPiece
  shipCount : Int
deriving DecidableEq, Repr

/-- Fresh player (`new BattleShipPlayer(playerId, shipBoard, pinBoard)`). -/
def BattleShipPlayer.init (playerId : PLAYER) : BattleShipPlayer :=
  { playerId := playerId, ships := [], shipCount := 0 }

/-- Settle a new ship for the player on its ship board
(`BattleShipPlayer.settleShip`): the new ship takes id `shipCount`, board
failures propagate unchanged (leaving roster and counter untouched), and on
success the ship is appended and the counter incremented. -/
def BattleShipPlayer.settleShip (p : BattleShipPlayer) (shipBoard : Board)
    (size : Option Nat) (orientation : ORIENTATION) (position : BoardPosition) :
    Except (BSError × BattleShipPlayer × Board) (BattleShipPlayer × Board) :=
  let ship := ShipPiece.make p.shipCount size orientation position
  match shipBoard.settleShip ship with
  | .error (e, b') => .error (e, p, b')
  | .ok b' =>
    .ok ({ p with ships := p.ships ++ [ship], shipCount := p.shipCount + 1 }, b')

/-- Marked state of `ship.damaged[part]`: a read beyond the array is the falsy
`undefined`. -/
def damagedAt (ship : ShipPiece) (part : Int) : Bool :=
  if part < 0 then false else (ship.damaged[part.toNat]?).getD false

/-- Check `part >= ship.size`: false when the size is undefined (NaN). -/
def partGeSize (part : Int) : Option Nat → Bool
  | some n => part ≥ (n : Int)
  | none => false

/-- Damage a ship part (`BattleShipPlayer.receiveDamage`).  Returns whether
the damaged ship was destroyed. With an undefined ship size the checks
`part >= ship.size` and `ship.damage === ship.size` are NaN comparisons and
hence false. -/
def BattleShipPlayer.receiveDamage (p : BattleShipPlayer) (shipId part : Int) :
    Except (BSError × BattleShipPlayer) (Bool × BattleShipPlayer) :=
  if shipId < 0 ∨ shipId ≥ (p.ships.length : Int) then
    .error (.invalidShipId shipId, p)
  else
    match p.ships[shipId.toNat]? with
    | none => .error (.undefinedAccess, p)
    | some ship =>
      if part < 0 ∨ partGeSize part ship.size then
        .error (.invalidPart, p)
      else if damagedAt ship part then
        .error (.alreadyDamaged part shipId, p)
      else
        let ship' := { ship with damaged := ship.damaged.set part.toNat true
                                 damage := ship.damage + 1 }
        let p' := { p with ships := p.ships.set shipId.toNat ship' }
        if ship.size = some (ship.damage + 1) then
          .ok (true, { p' with shipCount := p'.shipCount - 1 })
        else
          .ok (false, p')

/-- Game settings (`BattleShipSettings`): boardSize 10, ship counts [2, 2, 1]
for sizes [1, 3, 5] (all odd, as required by the constructor check). -/
structure BattleShipSettings where
  boardSize : Nat := 10
  playerShipCount : Nat := 5
  shipCountByType : List Nat := [2, 2, 1]
  shipSizeByType : List Nat := [1, 3, 5]
deriving DecidableEq, Repr

/-- Canonical settings object (`new BattleShipSettings()`). -/
def defaultSettings : BattleShipSettings := {}

/-- Ship size sequence (`buildShipSizeSequence`): for each ship type in order,
its size repeated count times. -/
def BattleShipSettings.buildShipSizeSequence (s : BattleShipSettings) : List Nat :=
  (s.shipCountByType.zip s.shipSizeByType).foldr
    (fun p acc => List.replicate p.1 p.2 ++ acc) []

/-- Game state (`BattleShipGame`): the two players and the two physical
boards.  `p1Board` is P1's ship board and P2's pin board; `p2Board` is P2's
ship board and P1's pin board. -/
structure BattleShipGame where
  p1 : BattleShipPlayer
  p2 : BattleShipPlayer
  p1Board : Board
  p2Board : Board
deriving DecidableEq, Repr

/-- Fresh game (`new BattleShipGame(settings)`). -/
def BattleShipGame.init (settings : BattleShipSettings) : BattleShipGame :=
  { p1 := BattleShipPlayer.init .P1
    p2 := BattleShipPlayer.init .P2
    p1Board := Board.init settings.boardSize
    p2Board := Board.init settings.boardSize }

/-- Route a settle to the named player (`BattleShipGame.settleShip`). -/
def BattleShipGame.settleShip (g : BattleShipGame) (player : PLAYER)
    (shipSize : Option Nat) (shipOrientation : ORIENTATION)
    (shipPosition : BoardPosition) : Except (BSError × BattleShipGame) BattleShipGame :=
  match player with
  | .P1 =>
    match g.p1.settleShip g.p1Board shipSize shipOrientation shipPosition with
    | .error (e, p', b') => .error (e, { g with p1 := p', p1Board := b' })
    | .ok (p', b') => .ok { g with p1 := p', p1Board := b' }
  | .P2 =>
    match g.p2.settleShip g.p2Board shipSize shipOrientation shipPosition with
    | .error (e, p', b') => .error (e, { g with p2 := p', p2Board := b' })
    | .ok (p', b') => .ok { g with p2 := p', p2Board := b' }

/-- Execute a player attack (`BattleShipGame.attack`): the attacker attacks
its pin board (physically the defender's ship board); on a ship hit the
defender receives the damage and the result reports whether the defender has
no ships left.  A failure thrown after the board was marked keeps that mark
(the mutable board survives the exception). -/
def BattleShipGame.attack (g : BattleShipGame) (attackerId : PLAYER)
    (target : BoardPosition) : Except (BSError × BattleShipGame) (Bool × BattleShipGame) :=
  match attackerId with
  | .P1 =>
    match g.p2Board.attack target with
    | .error (e, b') => .error (e, { g with p2Board := b' })
    | .ok (report, b') =>
      match report with
      | some (damagedShipId, damagedShipPart) =>
        match g.p2.receiveDamage damagedShipId damagedShipPart with
        | .error (e, p') => .error (e, { g with p2 := p', p2Board := b' })
        | .ok (_, p') => .ok (p'.shipCount = 0, { g with p2 := p', p2Board := b' })
      | none => .ok (false, { g with p2Board := b' })
  | .P2 =>
    match g.p1Board.attack target with
    | .error (e, b') => .error (e, { g with p1Board := b' })
    | .ok (report, b') =>
      match report with
      | some (damagedShipId, damagedShipPart) =>
        match g.p1.receiveDamage damagedShipId damagedShipPart with
        | .error (e, p') => .error (e, { g with p1 := p', p1Board := b' })
        | .ok (_, p') => .ok (p'.shipCount = 0, { g with p1 := p', p1Board := b' })
      | none => .ok (false, { g with p1Board := b' })

/-- Kinds of game state (enum BattleShipStateKind). -/
inductive BattleShipStateKind where
  | SHIP_CRAFTING
  | BATTLE
  | GAME_OVER
deriving DecidableEq, Repr

/-- Ship crafting state (class ShipCraftState). -/
structure ShipCraftState where
  player : PLAYER
  selected : Bool
  shipSizeSequence : List Nat
  shipSizeIterator : Nat
  orientation : ORIENTATION
  pos : Option BoardPosition
deriving DecidableEq, Repr

/-- Fresh crafting state (`new ShipCraftState(shipSizeSequence, player)`). -/
def ShipCraftState.init (shipSizeSequence : List Nat) (player : PLAYER) : ShipCraftState :=
  { player := player
    selected := false
    shipSizeSequence := shipSizeSequence
    shipSizeIterator := 0
    orientation := .HORIZONTAL
    pos := none }

/-- Fetch the next ship size and advance the iterator
(`ShipCraftState.nextShipSize`); `none` when the iterator has reached the end
of the sequence. -/
def ShipCraftState.nextShipSize (s : ShipCraftState) : Option Nat × ShipCraftState :=
  if s.shipSizeIterator = s.shipSizeSequence.length then (none, s)
  else (s.shipSizeSequence[s.shipSizeIterator]?,
        { s with shipSizeIterator := s.shipSizeIterator + 1 })

/-- Reset of the transient crafting fields (`ShipCraftState.reset`). -/
def ShipCraftState.reset (s : ShipCraftState) : ShipCraftState :=
  { s with selected := false, shipSizeIterator := 0, orientation := .HORIZONTAL, pos := none }

/-- Battle state (class BattleState); its constructor always sets the player
to P1. -/
structure BattleState where
  player : PLAYER
  selected : Bool
  pos : Option BoardPosition
deriving DecidableEq, Repr

/-- Fresh battle state (`new BattleState()`). -/
def BattleState.init : BattleState :=
  { player := .P1, selected := false, pos := none }

/-- Reset of the transient battle fields (`BattleState.reset`). -/
def BattleState.reset (s : BattleState) : BattleState :=
  { s with selected := false, pos := none }

/-- Rules state: tagged union of the three phases (type BattleShipState). -/
inductive BattleShipState where
  | shipCraft (s : ShipCraftState)
  | battle (s : BattleState)
  | gameOver (winningPlayer : PLAYER)
deriving DecidableEq, Repr

/-- Kind tag of a rules state. -/
def BattleShipState.kind : BattleShipState → BattleShipStateKind
  | .shipCraft _ => .SHIP_CRAFTING
  | .battle _ => .BATTLE
  | .gameOver _ => .GAME_OVER

/-- Player field of a rules state (every variant carries one). -/
def BattleShipState.player : BattleShipState → PLAYER
  | .shipCraft s => s.player
  | .battle s => s.player
  | .gameOver winningPlayer => winningPlayer

/-- Location tag of a MOVE event (const enum BSMoveLoc). -/
inductive BSMoveLoc where
  | SHIP_GRID
  | PIN_GRID
deriving DecidableEq, Repr

/-- Input events (BattleShipEvent hierarchy). -/
inductive BattleShipEvent where
  | select
  | unselect
  | move (toPos : BoardPosition) (loc : BSMoveLoc)
  | rotate
deriving DecidableEq, Repr

/-- View commands (BattleShipCommand hierarchy); ErrorCmd carries its log. -/
inductive BattleShipCommand where
  | changePlayer
  | makeShip (size : Nat)
  | makePin
  | selectPin
  | selectShip
  | movePin (toPos : BoardPosition)
  | rotateShip
  | moveShip (toPos : BoardPosition)
  | settlePin
  | settleShip
  | errorCmd (log : String)
deriving DecidableEq, Repr

/-- Interaction control signals (BattleShipControl hierarchy). -/
inductive BattleShipControl where
  | enableSelection
  | disableSelection
  | enableUnselection
  | disableUnselection
  | enableRotation
  | disableRotation
  | enableMove
  | disableMove
deriving DecidableEq, Repr

/-- Log of the ErrorCmd built when a settle attempt fails, mirroring the
template string of `processUnselect`. -/
def settleErrorLog (player : PLAYER) (shipSize : Option Nat)
    (orientation : ORIENTATION) (pos : BoardPosition) (e : BSError) : String :=
  "Error trying to settle ship."
    ++ "\nPlayer: " ++ player.str
    ++ "\nSize: " ++ sizeStr shipSize
    ++ "\nOrientation: " ++ orientation.str
    ++ "\nPosition: " ++ posStr pos
    ++ "\n\n" ++ e.message

/-- Log of the ErrorCmd built when an attack attempt fails. -/
def attackErrorLog (player : PLAYER) (pos : BoardPosition) (e : BSError) : String :=
  "Error trying to attack position."
    ++ "\nPlayer: " ++ player.str
    ++ "\nPosition: " ++ posStr pos
    ++ "\n\n" ++ e.message

/-- SELECT processing (`BattleShipRules.processSelect`). -/
def processSelect (st : BattleShipState) : List BattleShipCommand × BattleShipState :=
  match st with
  | .shipCraft s =>
    if !s.selected then ([.selectShip], .shipCraft { s with selected := true })
    else ([], st)
  | .battle s =>
    if !s.selected then ([.selectPin], .battle { s with selected := true })
    else ([], st)
  | .gameOver _ => ([], st)

/-- ROTATE processing (`BattleShipRules.processRotate`). -/
def processRotate (st : BattleShipState) : List BattleShipCommand × BattleShipState :=
  match st with
  | .shipCraft s =>
    if s.selected then
      let o := if s.orientation = .VERTICAL then ORIENTATION.HORIZONTAL else .VERTICAL
      ([.rotateShip], .shipCraft { s with orientation := o })
    else ([], st)
  | _ => ([], st)

/-- MOVE processing (`BattleShipRules.processMove`). -/
def processMove (st : BattleShipState) (loc : BSMoveLoc) (toPos : BoardPosition) :
    List BattleShipCommand × BattleShipState :=
  match st with
  | .shipCraft s =>
    if loc = .SHIP_GRID ∧ s.selected then
      ([.moveShip toPos], .shipCraft { s with pos := some toPos })
    else ([], st)
  | .battle s =>
    if loc = .PIN_GRID ∧ s.selected then
      ([.movePin toPos], .battle { s with pos := some toPos })
    else ([], st)
  | .gameOver _ => ([], st)

/-- UNSELECT processing (`BattleShipRules.processUnselect`), the commit point.
In crafting, the size settled is read at `shipSizeSequence[shipSizeIterator]`
(an out-of-range read gives the undefined size) and `selected` is cleared
before the settle is even attempted.  In battle, a winning attack replaces
the state by GameOver with no commands. -/
def processUnselect (st : BattleShipState) (game : BattleShipGame) :
    List BattleShipCommand × BattleShipState × BattleShipGame :=
  match st with
  | .shipCraft s0 =>
    if s0.selected then
      let player := s0.player
      let shipSize := s0.shipSizeSequence[s0.shipSizeIterator]?
      let orientation := s0.orientation
      let s := { s0 with selected := false }
      match s0.pos with
      | none => ([.settleShip], .shipCraft s, game)
      | some pos =>
        match game.settleShip player shipSize orientation pos with
        | .error (e, game') =>
          ([.errorCmd (settleErrorLog player shipSize orientation pos e)], .shipCraft s, game')
        | .ok game' =>
          match s.nextShipSize with
          | (some nextSize, s') => ([.settleShip, .makeShip nextSize], .shipCraft s', game')
          | (none, s') =>
            if s'.player = .P1 then
              let s2 := { s'.reset with player := PLAYER.P2 }
              match s2.nextShipSize with
              | (none, s3) =>
                ([.settleShip, .changePlayer, .errorCmd "Game settings of Player 2 has no ships."],
                 .shipCraft s3, game')
              | (some nextSize, s3) =>
                ([.settleShip, .changePlayer, .makeShip nextSize], .shipCraft s3, game')
            else
              ([.settleShip], .battle BattleState.init, game')
    else ([], st, game)
  | .battle s0 =>
    if s0.selected then
      let player := s0.player
      match s0.pos with
      | none => ([.settlePin], .battle { s0 with selected := false }, game)
      | some pos =>
        match game.attack player pos with
        | .error (e, game') =>
          ([.errorCmd (attackErrorLog player pos e)], .battle s0, game')
        | .ok (gameEnded, game') =>
          if !gameEnded then
            ([.settlePin, .changePlayer, .makePin], .battle s0.reset, game')
          else
            ([], .gameOver player, game')
    else ([], st, game)
  | .gameOver _ => ([], st, game)

/-- Control-signal generation (`BattleShipRules.generateControls`): diffs the
state before and after the event. -/
def generateControls (beforeState afterState : BattleShipState) : List BattleShipControl :=
  if beforeState.kind = .SHIP_CRAFTING ∧ beforeState.player = .P2 ∧ afterState.player = .P1 then
    [.disableRotation]
  else if beforeState.kind = .BATTLE ∧ afterState.kind = .GAME_OVER then
    [.disableSelection, .disableUnselection, .disableMove]
  else []

/-- Event dispatch (`BattleShipRules.apply`): processes the event, then emits
the control signals computed from the before/after states.  Returns
(commands, controls, new rules state, new game state). -/
def BattleShipRules.apply (st : BattleShipState) (event : BattleShipEvent)
    (game : BattleShipGame) :
    List BattleShipCommand × List BattleShipControl × BattleShipState × BattleShipGame :=
  let beforeState := st
  let (cmds, st', game') :=
    match event with
    | .select => let (c, s) := processSelect st; (c, s, game)
    | .unselect => processUnselect st game
    | .rotate => let (c, s) := processRotate st; (c, s, game)
    | .move toPos loc => let (c, s) := processMove st loc toPos; (c, s, game)
  (cmds, generateControls beforeState st', st', game')

/-- Truthiness of the value returned by nextShipSize under the `if (size)`
test of `initView` (`undefined` and `0` are falsy). -/
def jsTruthy : Option Nat → Bool
  | none => false
  | some n => n != 0

/-- Initial view commands (`BattleShipRules.initView`): announce the first
ship size (or an error for an empty sequence), advancing the iterator. -/
def initView (s : ShipCraftState) : List BattleShipCommand × ShipCraftState :=
  let (size, s') := s.nextShipSize
  if jsTruthy size then ([.makeShip (size.getD 0)], s')
  else ([.errorCmd "Player 1 has no ships."], s')

/-- Initial rules state (`new BattleShipRules(gameSettings)`). -/
def initialRulesState (settings : BattleShipSettings) : ShipCraftState :=
  ShipCraftState.init settings.buildShipSizeSequence .P1

/-- Iterated event application, for temporal statements over event traces. -/
def applyAll (st : BattleShipState) (game : BattleShipGame) :
    List BattleShipEvent → BattleShipState × BattleShipGame
  | [] => (st, game)
  | e :: rest =>
    let (_, _, st', game') := BattleShipRules.apply st e game
    applyAll st' game' rest

/-! ## Verification vocabulary -/

/-- Bounds predicate of the specification: both coordinates in [0, boardSize). -/
def inBoundsPos (bs : Nat) (p : Int × Int) : Prop :=
  0 ≤ p.1 ∧ p.1 < (bs : Int) ∧ 0 ≤ p.2 ∧ p.2 < (bs : Int)

instance (bs : Nat) (p : Int × Int) : Decidable (inBoundsPos bs p) := by
  unfold inBoundsPos; infer_instance

/-- Liveness of a ship: the decrement test of `receiveDamage` is
`damage === size`, so a ship is destroyed exactly when its size equals its
damage counter. -/
def ShipPiece.alive (s : ShipPiece) : Bool :=
  !(s.size == some s.damage)

/-- Number of live ships in a roster. -/
def countAlive (ships : List ShipPiece) : Nat :=
  (ships.filter ShipPiece.alive).length

/-- Well-formed ship: the damage record has one slot per unit of length and
the damage counter counts the marked slots. -/
def ShipWF (s : ShipPiece) : Prop :=
  s.size = some s.damaged.length ∧ s.damage = s.damaged.count true

/-- Well-formed player: every ship of the roster is well-formed and the
live-ship counter counts the non-destroyed ships. -/
def PlayerWF (p : BattleShipPlayer) : Prop :=
  (∀ s ∈ p.ships, ShipWF s) ∧ p.shipCount = (countAlive p.ships : Int)

instance (s : ShipPiece) : Decidable (ShipWF s) := by
  unfold ShipWF; infer_instance

instance (p : BattleShipPlayer) : Decidable (PlayerWF p) := by
  unfold PlayerWF; infer_instance

/-- Player attacked by the given attacker. -/
def BattleShipGame.defender (g : BattleShipGame) : PLAYER → BattleShipPlayer
  | .P1 => g.p2
  | .P2 => g.p1

/-- Concrete game used to witness the win-detection claim: P2 owns a single
size-1 ship settled at (0, 0) of a 2 × 2 board. -/
def lastShipGame : BattleShipGame :=
  { p1 := BattleShipPlayer.init .P1
    p2 := { playerId := .P2
            ships := [{ id := 0, size := some 1, orientation := .HORIZONTAL,
                        position := (0, 0), damaged := [false], damage := 0 }]
            shipCount := 1 }
    p1Board := Board.init 2
    p2Board := { board := [[shipCell 0 0, waterCell], [waterCell, waterCell]], boardSize := 2 } }

/-- Concrete fresh size-1 ship used to witness the damage claims. -/
def damageShip : ShipPiece :=
  { id := 0, size := some 1, orientation := .HORIZONTAL, position := (0, 0)
    damaged := [false], damage := 0 }

/-- Concrete player owning `damageShip`, used to witness the damage claims. -/
def damagePlayer : BattleShipPlayer :=
  { playerId := .P2, ships := [damageShip], shipCount := 1 }

/-- State of `lastShipGame` after P1's winning attack at (0, 0). -/
def lastShipGameAfter : BattleShipGame :=
  { p1 := BattleShipPlayer.init .P1
    p2 := { playerId := .P2
            ships := [{ id := 0, size := some 1, orientation := .HORIZONTAL,
                        position := (0, 0), damaged := [true], damage := 1 }]
            shipCount := 0 }
    p1Board := Board.init 2
    p2Board := { board := [[{ cellKind := .SHIP 0 0, attacked := true }, waterCell],
                           [waterCell, waterCell]], boardSize := 2 } }

/-- Iterated `receiveDamage` on one ship, recording for each successful call
its destroyed report and the live-ship counter right after the call;
`none` as soon as one call fails. -/
def damageResults (p : BattleShipPlayer) (sid : Int) :
    List Int → Option (List (Bool × Int))
  | [] => some []
  | part :: rest =>
    match p.receiveDamage sid part with
    | .ok (destroyed, p') =>
      (damageResults p' sid rest).map (fun l => (destroyed, p'.shipCount) :: l)
    | .error _ => none

/-- Payload returned by a successful attack on a cell: the (shipId, shipPart)
of a ship cell, nothing for water. -/
def cellPayload (c : BoardCell) : Option (Int × Int) :=
  match c.cellKind with
  | .SHIP sid part => some (sid, part)
  | .WATER => none

/-- Rank of a phase in the one-way order Crafting → Battle → GameOver. -/
def phaseRank : BattleShipState → Nat
  | .shipCraft _ => 0
  | .battle _ => 1
  | .gameOver _ => 2

/-- Crafting state of the C1 counterexample: a selected size-3 ship pending
at position (0, 9), whose settle fails the extent check of the board. -/
def cexCraftState : ShipCraftState :=
  { player := .P1
    selected := true
    shipSizeSequence := [3]
    shipSizeIterator := 0
    orientation := .HORIZONTAL
    pos := some (0, 9) }

/-- Initial crafting state after `init()` under the canonical settings. -/
def traceInitState : ShipCraftState := (initView (initialRulesState defaultSettings)).2

/-- Commands emitted by `init()` under the canonical settings. -/
def traceInitCmds : List BattleShipCommand := (initView (initialRulesState defaultSettings)).1

/-- Trace of the C2 scenario: state and game after SELECT and MOVE (0,0). -/
def traceAfterMove1 : BattleShipState × BattleShipGame :=
  applyAll (.shipCraft traceInitState) (BattleShipGame.init defaultSettings)
    [.select, .move (0, 0) .SHIP_GRID]

/-- Full result of the first UNSELECT commit of the C2 scenario. -/
def traceCommit1 :
    List BattleShipCommand × List BattleShipControl × BattleShipState × BattleShipGame :=
  BattleShipRules.apply traceAfterMove1.1 .unselect traceAfterMove1.2

/-- Trace of the C2 scenario: state and game after the second SELECT and
MOVE (2,5). -/
def traceAfterMove2 : BattleShipState × BattleShipGame :=
  applyAll traceCommit1.2.2.1 traceCommit1.2.2.2 [.select, .move (2, 5) .SHIP_GRID]

/-- Full result of the second UNSELECT commit of the C2 scenario. -/
def traceCommit2 :
    List BattleShipCommand × List BattleShipControl × BattleShipState × BattleShipGame :=
  BattleShipRules.apply traceAfterMove2.1 .unselect traceAfterMove2.2

/-- Decidable equality of Except results, for evaluating the engine at
concrete inputs. -/
instance {ε α : Type} [DecidableEq ε] [DecidableEq α] : DecidableEq (Except ε α)
  | .error e, .error e' =>
    if h : e = e' then .isTrue (congrArg _ h) else .isFalse (fun hc => h (Except.error.inj hc))
  | .error _, .ok _ => .isFalse (fun hc => Except.noConfusion hc)
  | .ok _, .error _ => .isFalse (fun hc => Except.noConfusion hc)
  | .ok a, .ok a' =>
    if h : a = a' then .isTrue (congrArg _ h) else .isFalse (fun hc => h (Except.ok.inj hc))

/-! ## Helper lemmas -/

/-- Every failure path of `Board.settleShip` pairs the error with the board it
received: the occupancy check loop only reads, and the marking loop starts
only after every check has passed. -/
theorem Board.settleShip_error_board_eq (b : Board) (ship : ShipPiece) (e : BSError) (b' : Board)
    (h : b.settleShip ship = .error (e, b')) : b' = b := by
  simp only [Board.settleShip] at h
  repeat' split at h
  all_goals simp_all

/-- A failed `BattleShipPlayer.settleShip` leaves roster, counter and board
unchanged. -/
theorem BattleShipPlayer.settleShip_error_state_eq (p : BattleShipPlayer) (bd : Board)
    (size : Option Nat) (orientation : ORIENTATION) (position : BoardPosition)
    (e : BSError) (p' : BattleShipPlayer) (b' : Board)
    (h : p.settleShip bd size orientation position = .error (e, p', b')) :
    p' = p ∧ b' = bd := by
  simp only [BattleShipPlayer.settleShip] at h
  cases hsb : bd.settleShip (ShipPiece.make p.shipCount size orientation position) with
  | error eb =>
    obtain ⟨e0, b0⟩ := eb
    rw [hsb] at h
    simp only [Except.error.injEq, Prod.mk.injEq] at h
    obtain ⟨-, hp, hb⟩ := h
    exact ⟨hp.symm, hb ▸ Board.settleShip_error_board_eq _ _ _ _ hsb⟩
  | ok b2 =>
    rw [hsb] at h
    simp at h

/-- A failed `BattleShipGame.settleShip` leaves the whole game unchanged. -/
theorem BattleShipGame.settleShip_error_game_eq (g : BattleShipGame) (player : PLAYER)
    (size : Option Nat) (orientation : ORIENTATION) (position : BoardPosition)
    (e : BSError) (g' : BattleShipGame)
    (h : g.settleShip player size orientation position = .error (e, g')) : g' = g := by
  unfold BattleShipGame.settleShip at h
  cases player with
  | P1 =>
    cases hsp : g.p1.settleShip g.p1Board size orientation position with
    | error epb =>
      obtain ⟨e0, p0, b0⟩ := epb
      obtain ⟨hp, hb⟩ := BattleShipPlayer.settleShip_error_state_eq _ _ _ _ _ _ _ _ hsp
      rw [hsp] at h
      simp only [Except.error.injEq, Prod.mk.injEq] at h
      rw [← h.2, hp, hb]
    | ok pb =>
      obtain ⟨p0, b0⟩ := pb
      rw [hsp] at h
      simp at h
  | P2 =>
    cases hsp : g.p2.settleShip g.p2Board size orientation position with
    | error epb =>
      obtain ⟨e0, p0, b0⟩ := epb
      obtain ⟨hp, hb⟩ := BattleShipPlayer.settleShip_error_state_eq _ _ _ _ _ _ _ _ hsp
      rw [hsp] at h
      simp only [Except.error.injEq, Prod.mk.injEq] at h
      rw [← h.2, hp, hb]
    | ok pb =>
      obtain ⟨p0, b0⟩ := pb
      rw [hsp] at h
      simp at h

/-! ## Claims -/

/-- C8: every failed settle attempt, whether it fails the anchor check, the
extent check, the occupancy check or crashes on a missing cell, leaves the
board completely unchanged: the board paired with the error is exactly the
input board, so no cell was turned into a SHIP cell and no cell was
modified. -/
theorem settleShip_failure_leaves_board_unchanged (b : Board) (ship : ShipPiece)
    (e : BSError) (b' : Board) (h : b.settleShip ship = .error (e, b')) : b' = b :=
  Board.settleShip_error_board_eq b ship e b' h

/-- Witness for C8 at a concrete failing settle (anchor (5, 5) on a 2 × 2
board). -/
theorem settleShip_failure_leaves_board_unchanged_witness :
    (Board.init 2).settleShip (ShipPiece.make 0 (some 1) .HORIZONTAL (5, 5)) =
      .error (.posOutOfBounds 0, Board.init 2) ∧ Board.init 2 = Board.init 2 :=
  ⟨by decide, settleShip_failure_leaves_board_unchanged (Board.init 2)
    (ShipPiece.make 0 (some 1) .HORIZONTAL (5, 5)) (.posOutOfBounds 0) (Board.init 2)
    (by decide)⟩

/-- C3 (code bug): settling a size-1 ship at (0, 3) on an empty 10 × 10 board
succeeds, but the occupied cell stores shipPart = 3 — the absolute y
coordinate written by the marking loop — although the 0-based index of that
cell along the ship is 0; `receiveDamage` itself rejects any part ≥ size, so
the stored part 3 of a size-1 ship can never be damaged. -/
theorem settleShip_stores_coordinate_not_index :
    ((Board.init 10).settleShip (ShipPiece.make 0 (some 1) .HORIZONTAL (0, 3))).toOption.map
        (fun b => b.cell 0 3) = some (some (shipCell 0 3)) ∧
      partGeSize 3 (some 1) = true := by decide

/-- C4 counterexample: a size-1 vertical ship anchored at (5, 10) on a 10 × 10
board is outside [0, boardSize) in its y coordinate, yet `settleShip` fails
with the `undefinedAccess` TypeError (reading the missing cell (5, 10)) and
not with an OutOfBounds failure, because the anchor check uses
`y > boardSize` instead of `y >= boardSize`. -/
theorem settleShip_oob_not_outOfBounds_counterexample :
    ¬ inBoundsPos 10 ((5 : Int), (10 : Int)) ∧
      (Board.init 10).settleShip (ShipPiece.make 0 (some 1) .VERTICAL (5, 10)) =
        .error (.undefinedAccess, Board.init 10) ∧
      BSError.isOutOfBounds .undefinedAccess = false := by decide

/-- Reading an in-bounds cell of a well-formed board always succeeds. -/
theorem Board.cell_some (b : Board) (hwf : b.WF) {x y : Int} (hx0 : 0 ≤ x)
    (hx : x < (b.boardSize : Int)) (hy0 : 0 ≤ y) (hy : y < (b.boardSize : Int)) :
    ∃ c, b.cell x y = some c := by
  unfold Board.cell
  rw [if_neg (by omega)]
  have hxl : x.toNat < b.board.length := by rw [hwf.1]; omega
  obtain ⟨row, hrow⟩ : ∃ row, b.board[x.toNat]? = some row := by
    rw [List.getElem?_eq_getElem hxl]
    exact ⟨_, rfl⟩
  rw [hrow]
  have hrl : row.length = b.boardSize := hwf.2 _ (List.getElem?_mem hrow)
  have hyl : y.toNat < row.length := by rw [hrl]; omega
  simp only [Option.some_bind]
  exact ⟨_, List.getElem?_eq_getElem hyl⟩

/-- Reading a cell whose column index is boardSize or more on a well-formed
board yields undefined. -/
theorem Board.cell_none_of_y_ge (b : Board) (hwf : b.WF) {x y : Int} (hx0 : 0 ≤ x)
    (hx : x < (b.boardSize : Int)) (hy : (b.boardSize : Int) ≤ y) : b.cell x y = none := by
  unfold Board.cell
  rw [if_neg (by omega)]
  have hxl : x.toNat < b.board.length := by rw [hwf.1]; omega
  obtain ⟨row, hrow⟩ : ∃ row, b.board[x.toNat]? = some row := by
    rw [List.getElem?_eq_getElem hxl]
    exact ⟨_, rfl⟩
  rw [hrow]
  have hrl : row.length = b.boardSize := hwf.2 _ (List.getElem?_mem hrow)
  simp only [Option.some_bind]
  exact List.getElem?_eq_none_iff.mpr (by omega)

/-- The occupancy loop crashes at once when its first cell read is
undefined. -/
theorem checkOccupied_cons_none (b : Board) (sid : Int) (n : Nat) (cx cy : Int)
    (rest : List (Int × Int)) (hc : b.cell cx cy = none) :
    checkOccupied b sid n ((cx, cy) :: rest) = some .undefinedAccess := by
  unfold checkOccupied
  rw [hc]

/-- C4 (amended): for a well-formed board and a ship of odd (configured)
size, `settleShip` fails with the board unchanged whenever the anchor or any
cell of the occupied run lies outside [0, boardSize) on either coordinate;
the failure is an OutOfBounds failure in every case except a vertical ship
anchored exactly at y = boardSize (which passes the off-by-one anchor check
`y > boardSize`), where it is the undefined-cell TypeError raised by the
occupancy loop. -/
theorem settleShip_fails_on_out_of_bounds (b : Board) (ship : ShipPiece) (n : Nat)
    (hwf : b.WF) (hsz : ship.size = some n) (hodd : Odd n)
    (hout : ¬ inBoundsPos b.boardSize ship.position ∨
      ∃ c ∈ craftCells ship.position ship.orientation n, ¬ inBoundsPos b.boardSize c) :
    ∃ e, b.settleShip ship = .error (e, b) ∧
      (e.isOutOfBounds = true ∨
        (e = .undefinedAccess ∧ ship.orientation = .VERTICAL ∧
          ship.position.2 = (b.boardSize : Int))) := by
  obtain ⟨k, hk⟩ := hodd
  obtain ⟨sid, ssize, sorient, spos, sdmg, sdc⟩ := ship
  obtain ⟨x, y⟩ := spos
  simp only at hsz
  subst hsz
  have hkval : (((n : Nat) : Int) - 1) / 2 = (k : Int) := by omega
  simp only [Board.settleShip, craftCells] at hout ⊢
  cases sorient with
  | HORIZONTAL =>
    simp only at hout ⊢
    by_cases hanchor : x < 0 ∨ x ≥ (b.boardSize : Int) ∨ y < 0 ∨ y > (b.boardSize : Int)
    · rw [if_pos hanchor]
      exact ⟨_, rfl, Or.inl rfl⟩
    · rw [if_neg hanchor]
      push_neg at hanchor
      rw [hkval]
      by_cases hext : y - (k : Int) < 0 ∨ y + (k : Int) ≥ (b.boardSize : Int)
      · rw [if_pos hext]
        exact ⟨_, rfl, Or.inl rfl⟩
      · exfalso
        push_neg at hext
        rw [hkval] at hout
        rcases hout with hout | ⟨c, hcmem, hcout⟩
        · exact hout ⟨by omega, by omega, by omega, by omega⟩
        · simp only [List.mem_map, List.mem_range] at hcmem
          obtain ⟨i, hi, rfl⟩ := hcmem
          exact hcout ⟨by omega, by omega, by omega, by omega⟩
  | VERTICAL =>
    simp only at hout ⊢
    by_cases hanchor : x < 0 ∨ x ≥ (b.boardSize : Int) ∨ y < 0 ∨ y > (b.boardSize : Int)
    · rw [if_pos hanchor]
      exact ⟨_, rfl, Or.inl rfl⟩
    · rw [if_neg hanchor]
      push_neg at hanchor
      rw [hkval]
      by_cases hext : x - (k : Int) < 0 ∨ x + (k : Int) ≥ (b.boardSize : Int)
      · rw [if_pos hext]
        exact ⟨_, rfl, Or.inl rfl⟩
      · push_neg at hext
        rw [hkval] at hout
        by_cases hy : y < (b.boardSize : Int)
        · exfalso
          rcases hout with hout | ⟨c, hcmem, hcout⟩
          · exact hout ⟨by omega, by omega, by omega, by omega⟩
          · simp only [List.mem_map, List.mem_range] at hcmem
            obtain ⟨i, hi, rfl⟩ := hcmem
            exact hcout ⟨by omega, by omega, by omega, by omega⟩
        · have hyeq : y = (b.boardSize : Int) := by omega
          obtain ⟨m, rfl⟩ : ∃ m, n = m + 1 := ⟨2 * k, by omega⟩
          have hcell : b.cell (x - (k : Int)) y = none :=
            Board.cell_none_of_y_ge b hwf (by omega) (by omega) (by omega)
          have hcheck : checkOccupied b sid (m + 1)
              (List.map (fun (i : Nat) => (x - (k : Int) + (i : Int), y))
                (List.range (m + 1))) = some .undefinedAccess := by
            rw [List.range_succ_eq_map, List.map_cons]
            simp only [Nat.cast_zero, add_zero]
            exact checkOccupied_cons_none b sid (m + 1) _ _ _ hcell
          rw [if_neg ?hext2]
          case hext2 => omega
          rw [hcheck]
          exact ⟨.undefinedAccess, rfl, Or.inr ⟨rfl, trivial, hyeq⟩⟩

/-- Witness for the amended C4 at a concrete out-of-bounds settle: a size-3
horizontal ship anchored at column 9 of a 10-wide board. -/
theorem settleShip_fails_on_out_of_bounds_witness :
    ∃ e, (Board.init 10).settleShip (ShipPiece.make 0 (some 3) .HORIZONTAL (0, 9)) =
        .error (e, Board.init 10) ∧
      (e.isOutOfBounds = true ∨
        (e = .undefinedAccess ∧
          (ShipPiece.make 0 (some 3) .HORIZONTAL (0, 9)).orientation = .VERTICAL ∧
          (ShipPiece.make 0 (some 3) .HORIZONTAL (0, 9)).position.2 = ((10 : Nat) : Int))) :=
  settleShip_fails_on_out_of_bounds (Board.init 10)
    (ShipPiece.make 0 (some 3) .HORIZONTAL (0, 9)) 3 (by decide) (by decide) (by decide)
    (Or.inr ⟨(0, 10), by decide, by decide⟩)

/-- Writing a cell never changes the recorded board size. -/
theorem Board.setCell_boardSize (b : Board) (x y : Int) (c : BoardCell) :
    (b.setCell x y c).boardSize = b.boardSize := by
  unfold Board.setCell
  repeat' split
  all_goals rfl

/-- Writing a cell that exists makes the next read of the same cell return
the written value. -/
theorem Board.cell_setCell_self (b : Board) (x y : Int) (c c0 : BoardCell)
    (h : b.cell x y = some c0) : (b.setCell x y c).cell x y = some c := by
  unfold Board.cell at h ⊢
  unfold Board.setCell
  by_cases hneg : x < 0 ∨ y < 0
  · rw [if_pos hneg] at h
    exact absurd h (by simp)
  · rw [if_neg hneg] at h ⊢
    cases hrow : b.board[x.toNat]? with
    | none => rw [hrow] at h; simp at h
    | some row =>
      rw [hrow] at h
      simp only [Option.some_bind] at h
      have hyl : y.toNat < row.length := by
        by_contra hcon
        rw [List.getElem?_eq_none_iff.mpr (by omega)] at h
        exact Option.noConfusion h
      have hxl : x.toNat < b.board.length := by
        by_contra hcon
        rw [List.getElem?_eq_none_iff.mpr (by omega)] at hrow
        exact Option.noConfusion hrow
      rw [if_neg hneg]
      dsimp only
      have hset : (b.board.set x.toNat (row.set y.toNat c))[x.toNat]? =
          some (row.set y.toNat c) := by
        rw [List.getElem?_set_self (by simpa using hxl)]
      simp only [hset, Option.some_bind]
      rw [List.getElem?_set_self (by simpa using hyl)]

/-- Evaluation of `Board.attack` at an out-of-bounds target. -/
theorem Board.attack_oob (b : Board) (x y : Int)
    (hoob : x < 0 ∨ y < 0 ∨ x ≥ (b.boardSize : Int) ∨ y ≥ (b.boardSize : Int)) :
    b.attack (x, y) = .error (.attackOutOfBounds x y, b) := by
  simp only [Board.attack]
  rw [if_pos hoob]

/-- Evaluation of `Board.attack` at an already attacked cell. -/
theorem Board.attack_already (b : Board) (x y : Int) (c : BoardCell)
    (hin : ¬(x < 0 ∨ y < 0 ∨ x ≥ (b.boardSize : Int) ∨ y ≥ (b.boardSize : Int)))
    (hc : b.cell x y = some c) (hatt : c.attacked = true) :
    b.attack (x, y) = .error (.alreadyAttacked x y, b) := by
  simp only [Board.attack]
  rw [if_neg hin]
  simp only [hc]
  rw [if_pos hatt]

/-- Evaluation of `Board.attack` at a fresh in-bounds cell. -/
theorem Board.attack_fresh (b : Board) (x y : Int) (c : BoardCell)
    (hin : ¬(x < 0 ∨ y < 0 ∨ x ≥ (b.boardSize : Int) ∨ y ≥ (b.boardSize : Int)))
    (hc : b.cell x y = some c) (hatt : c.attacked = false) :
    b.attack (x, y) = .ok (cellPayload c, b.setCell x y { c with attacked := true }) := by
  obtain ⟨ck, catt⟩ := c
  simp only at hatt
  subst hatt
  simp only [Board.attack]
  rw [if_neg hin]
  simp only [hc]
  cases ck <;> simp [cellPayload]

/-- C7: `Board.attack` on a well-formed board fails with OutOfBounds exactly
for targets outside the grid, fails with AlreadyAttacked exactly for
in-bounds cells whose attacked flag is set, otherwise marks the cell attacked
and returns the water/ship payload; consequently a second attack on the same
position always fails with AlreadyAttacked, and that failure changes neither
the first result nor any cell. -/
theorem attack_spec (b : Board) (p : BoardPosition) (hwf : b.WF) :
    (b.attack p = .error (.attackOutOfBounds p.1 p.2, b) ↔ ¬ inBoundsPos b.boardSize p) ∧
    (b.attack p = .error (.alreadyAttacked p.1 p.2, b) ↔
      (inBoundsPos b.boardSize p ∧ ∃ c, b.cell p.1 p.2 = some c ∧ c.attacked = true)) ∧
    (∀ c, b.cell p.1 p.2 = some c → c.attacked = false → inBoundsPos b.boardSize p →
      b.attack p = .ok (cellPayload c, b.setCell p.1 p.2 { c with attacked := true })) ∧
    (∀ r b', b.attack p = .ok (r, b') →
      b'.attack p = .error (.alreadyAttacked p.1 p.2, b')) := by
  obtain ⟨x, y⟩ := p
  have hbnds : ¬(x < 0 ∨ y < 0 ∨ x ≥ (b.boardSize : Int) ∨ y ≥ (b.boardSize : Int)) ↔
      inBoundsPos b.boardSize (x, y) := by
    simp only [inBoundsPos]; omega
  refine ⟨?_, ?_, ?_, ?_⟩
  · constructor
    · intro h
      by_contra hin
      obtain ⟨hx0, hx, hy0, hy⟩ := hin
      obtain ⟨c, hc⟩ := Board.cell_some b hwf hx0 hx hy0 hy
      by_cases hatt : c.attacked
      · rw [Board.attack_already b x y c (hbnds.mpr ⟨hx0, hx, hy0, hy⟩) hc hatt] at h
        simp at h
      · rw [Board.attack_fresh b x y c (hbnds.mpr ⟨hx0, hx, hy0, hy⟩) hc
          (Bool.not_eq_true _ ▸ hatt)] at h
        simp at h
    · intro h
      exact Board.attack_oob b x y (by rw [← hbnds] at h; exact not_not.mp h)
  · constructor
    · intro h
      by_cases hin : inBoundsPos b.boardSize (x, y)
      · refine ⟨hin, ?_⟩
        obtain ⟨hx0, hx, hy0, hy⟩ := hin
        obtain ⟨c, hc⟩ := Board.cell_some b hwf hx0 hx hy0 hy
        refine ⟨c, hc, ?_⟩
        by_cases hatt : c.attacked
        · exact hatt
        · rw [Board.attack_fresh b x y c (hbnds.mpr ⟨hx0, hx, hy0, hy⟩) hc
            (Bool.not_eq_true _ ▸ hatt)] at h
          simp at h
      · rw [Board.attack_oob b x y (by rw [← hbnds] at hin; exact not_not.mp hin)] at h
        simp at h
    · rintro ⟨hin, c, hc, hatt⟩
      exact Board.attack_already b x y c (hbnds.mpr hin) hc hatt
  · intro c hc hatt hin
    exact Board.attack_fresh b x y c (hbnds.mpr hin) hc hatt
  · intro r b' h
    by_cases hoob : x < 0 ∨ y < 0 ∨ x ≥ (b.boardSize : Int) ∨ y ≥ (b.boardSize : Int)
    · rw [Board.attack_oob b x y hoob] at h
      simp at h
    · have hin := hbnds.mp hoob
      obtain ⟨hx0, hx, hy0, hy⟩ := hin
      obtain ⟨c, hc⟩ := Board.cell_some b hwf hx0 hx hy0 hy
      by_cases hatt : c.attacked
      · rw [Board.attack_already b x y c hoob hc hatt] at h
        simp at h
      · rw [Board.attack_fresh b x y c hoob hc (Bool.not_eq_true _ ▸ hatt)] at h
        simp only [Except.ok.injEq, Prod.mk.injEq] at h
        obtain ⟨-, hb'⟩ := h
        subst hb'
        have hc' : (b.setCell x y { c with attacked := true }).cell x y =
            some { c with attacked := true } :=
          Board.cell_setCell_self b x y _ c hc
        exact Board.attack_already _ x y _
          (by rw [Board.setCell_boardSize]; exact hoob) hc' rfl

/-- Witness for C7 at a concrete board and position. -/
theorem attack_spec_witness :
    (Board.init 2).attack (0, 0) =
      .ok (cellPayload waterCell,
        (Board.init 2).setCell 0 0 { waterCell with attacked := true }) :=
  (attack_spec (Board.init 2) (0, 0) (by decide)).2.2.1 waterCell (by decide) (by decide)
    (by decide)

/-- Evaluation of `receiveDamage` on an out-of-range ship id. -/
theorem BattleShipPlayer.receiveDamage_bad_id (p : BattleShipPlayer) (sid part : Int)
    (hbad : sid < 0 ∨ sid ≥ (p.ships.length : Int)) :
    p.receiveDamage sid part = .error (.invalidShipId sid, p) := by
  unfold BattleShipPlayer.receiveDamage
  rw [if_pos hbad]

/-- Evaluation of `receiveDamage` on a part outside the ship. -/
theorem BattleShipPlayer.receiveDamage_bad_part (p : BattleShipPlayer) (sid part : Int)
    (ship : ShipPiece) (hget : p.ships[sid.toNat]? = some ship)
    (hsid0 : 0 ≤ sid) (hsidlt : sid < (p.ships.length : Int))
    (hbad : part < 0 ∨ partGeSize part ship.size = true) :
    p.receiveDamage sid part = .error (.invalidPart, p) := by
  unfold BattleShipPlayer.receiveDamage
  rw [if_neg (by omega)]
  simp only [hget]
  rw [if_pos hbad]

/-- Evaluation of `receiveDamage` on an already damaged part. -/
theorem BattleShipPlayer.receiveDamage_already (p : BattleShipPlayer) (sid part : Int)
    (ship : ShipPiece) (hget : p.ships[sid.toNat]? = some ship)
    (hsid0 : 0 ≤ sid) (hsidlt : sid < (p.ships.length : Int))
    (hpart0 : 0 ≤ part) (hpge : partGeSize part ship.size = false)
    (hdmg : damagedAt ship part = true) :
    p.receiveDamage sid part = .error (.alreadyDamaged part sid, p) := by
  unfold BattleShipPlayer.receiveDamage
  rw [if_neg (by omega)]
  simp only [hget]
  rw [if_neg (by simp [hpge]; omega)]
  rw [if_pos hdmg]

/-- Evaluation of `receiveDamage` on a valid fresh part: the part is marked,
the damage counter incremented, and the ship is reported destroyed — with the
live-ship counter decremented — exactly when the incremented damage reaches
the size. -/
theorem BattleShipPlayer.receiveDamage_fresh (p : BattleShipPlayer) (sid part : Int)
    (ship : ShipPiece) (hget : p.ships[sid.toNat]? = some ship)
    (hsid0 : 0 ≤ sid) (hsidlt : sid < (p.ships.length : Int))
    (hpart0 : 0 ≤ part) (hpge : partGeSize part ship.size = false)
    (hfresh : damagedAt ship part = false) :
    p.receiveDamage sid part =
      if ship.size = some (ship.damage + 1) then
        .ok (true, { p with
          ships := p.ships.set sid.toNat
            { ship with damaged := ship.damaged.set part.toNat true,
                        damage := ship.damage + 1 }
          shipCount := p.shipCount - 1 })
      else
        .ok (false, { p with
          ships := p.ships.set sid.toNat
            { ship with damaged := ship.damaged.set part.toNat true,
                        damage := ship.damage + 1 } }) := by
  unfold BattleShipPlayer.receiveDamage
  rw [if_neg (by omega)]
  simp only [hget]
  rw [if_neg (by simp [hpge]; omega)]
  rw [if_neg (by rw [hfresh]; exact Bool.false_ne_true)]

/-- Inversion of a successful `receiveDamage`: the target ship exists, the
part was valid and fresh, and the counter moves exactly with the destroyed
report. -/
theorem BattleShipPlayer.receiveDamage_ok_inv (p : BattleShipPlayer) (sid part : Int)
    (destroyed : Bool) (p' : BattleShipPlayer)
    (h : p.receiveDamage sid part = .ok (destroyed, p')) :
    ∃ ship, p.ships[sid.toNat]? = some ship ∧ 0 ≤ part ∧
      partGeSize part ship.size = false ∧ damagedAt ship part = false ∧
      ((destroyed = true ∧ ship.size = some (ship.damage + 1) ∧
          p'.shipCount = p.shipCount - 1) ∨
        (destroyed = false ∧ ship.size ≠ some (ship.damage + 1) ∧
          p'.shipCount = p.shipCount)) := by
  unfold BattleShipPlayer.receiveDamage at h
  by_cases hbadid : sid < 0 ∨ sid ≥ (p.ships.length : Int)
  · rw [if_pos hbadid] at h
    simp at h
  · rw [if_neg hbadid] at h
    cases hget : p.ships[sid.toNat]? with
    | none =>
      simp only [hget] at h
      simp at h
    | some ship =>
      simp only [hget] at h
      by_cases hbad : part < 0 ∨ partGeSize part ship.size = true
      · rw [if_pos hbad] at h
        simp at h
      · rw [if_neg hbad] at h
        by_cases hdmg : damagedAt ship part = true
        · rw [if_pos hdmg] at h
          simp at h
        · rw [if_neg hdmg] at h
          rw [not_or, Bool.not_eq_true] at hbad
          rw [Bool.not_eq_true] at hdmg
          by_cases hdest : ship.size = some (ship.damage + 1)
          · rw [if_pos hdest] at h
            simp only [Except.ok.injEq, Prod.mk.injEq] at h
            refine ⟨ship, rfl, by omega, hbad.2, hdmg, Or.inl ⟨h.1.symm, hdest, ?_⟩⟩
            rw [← h.2]
          · rw [if_neg hdest] at h
            simp only [Except.ok.injEq, Prod.mk.injEq] at h
            refine ⟨ship, rfl, by omega, hbad.2, hdmg, Or.inr ⟨h.1.symm, hdest, ?_⟩⟩
            rw [← h.2]

/-- A well-formed ship owning a valid undamaged part is not destroyed. -/
theorem ShipPiece.alive_of_fresh_part (ship : ShipPiece) (hwf : ShipWF ship) (part : Int)
    (hpart0 : 0 ≤ part) (hpge : partGeSize part ship.size = false)
    (hfresh : damagedAt ship part = false) : ship.alive = true := by
  obtain ⟨hsz, hdmg⟩ := hwf
  have hlt : part.toNat < ship.damaged.length := by
    unfold partGeSize at hpge
    rw [hsz] at hpge
    simp only [decide_eq_false_iff_not, not_le] at hpge
    omega
  have hget : ship.damaged[part.toNat]? = some false := by
    unfold damagedAt at hfresh
    rw [if_neg (by omega)] at hfresh
    obtain ⟨v, hv⟩ : ∃ v, ship.damaged[part.toNat]? = some v :=
      ⟨_, List.getElem?_eq_getElem hlt⟩
    rw [hv] at hfresh
    simp only [Option.getD_some] at hfresh
    rw [hv, hfresh]
  have hcnt : ship.damaged.count true < ship.damaged.length := by
    rcases Nat.lt_or_ge (ship.damaged.count true) ship.damaged.length with hc | hc
    · exact hc
    · exfalso
      have hall := List.count_eq_length.mp
        (le_antisymm (List.count_le_length _ _) hc)
      exact absurd (hall false (List.getElem?_mem hget)) (by simp)
  unfold ShipPiece.alive
  rw [hsz, hdmg]
  simp only [Bool.not_eq_true', beq_eq_false_iff_ne, ne_eq, Option.some.injEq]
  omega

/-- A roster containing a live ship has a positive live count. -/
theorem countAlive_pos (ships : List ShipPiece) (ship : ShipPiece)
    (hmem : ship ∈ ships) (halive : ship.alive = true) : 1 ≤ countAlive ships := by
  unfold countAlive
  have hmf : ship ∈ ships.filter ShipPiece.alive := List.mem_filter.mpr ⟨hmem, halive⟩
  exact List.length_pos.mpr (List.ne_nil_of_mem hmf)

/-- Counter movement of a successful `receiveDamage` on a well-formed player:
the counter was at least one, drops by one exactly on a destroyed report and
is untouched otherwise. -/
theorem receiveDamage_count_facts (p : BattleShipPlayer) (sid part : Int)
    (destroyed : Bool) (p' : BattleShipPlayer) (hwf : PlayerWF p)
    (h : p.receiveDamage sid part = .ok (destroyed, p')) :
    1 ≤ p.shipCount ∧ (destroyed = true → p'.shipCount = p.shipCount - 1) ∧
      (destroyed = false → p'.shipCount = p.shipCount) := by
  obtain ⟨ship, hget, hp0, hpge, hfresh, hcases⟩ :=
    BattleShipPlayer.receiveDamage_ok_inv p sid part destroyed p' h
  have hmem : ship ∈ p.ships := List.getElem?_mem hget
  have halive := ShipPiece.alive_of_fresh_part ship (hwf.1 ship hmem) part hp0 hpge hfresh
  have hpos : 1 ≤ countAlive p.ships := countAlive_pos p.ships ship hmem halive
  have hcount := hwf.2
  refine ⟨by omega, ?_, ?_⟩
  · intro hd
    rcases hcases with ⟨-, -, hc⟩ | ⟨hfalse, -, -⟩
    · exact hc
    · rw [hd] at hfalse
      exact absurd hfalse (by simp)
  · intro hd
    rcases hcases with ⟨htrue, -, -⟩ | ⟨-, -, hc⟩
    · rw [hd] at htrue
      exact absurd htrue (by simp)
    · exact hc

/-- C5: `Game.attack` returns true exactly when the attacked player's
live-ship counter transitions from 1 to 0 on that call, and false otherwise,
including every attack that hits water. -/
theorem game_attack_true_iff_last_ship (g : BattleShipGame) (attacker : PLAYER)
    (target : BoardPosition) (res : Bool) (g' : BattleShipGame)
    (hwf : PlayerWF (g.defender attacker))
    (h : g.attack attacker target = .ok (res, g')) :
    res = true ↔
      ((g.defender attacker).shipCount = 1 ∧ (g'.defender attacker).shipCount = 0) := by
  cases attacker with
  | P1 =>
    simp only [BattleShipGame.attack] at h
    cases hba : g.p2Board.attack target with
    | error eb =>
      rw [hba] at h
      simp at h
    | ok rb =>
      obtain ⟨report, b'⟩ := rb
      simp only [hba] at h
      cases report with
      | none =>
        simp only [Except.ok.injEq, Prod.mk.injEq] at h
        obtain ⟨hres, hg'⟩ := h
        subst hg'
        simp only [BattleShipGame.defender] at hwf ⊢
        rw [← hres]
        simp only [Bool.false_eq_true, false_iff, not_and]
        intro h1
        omega
      | some sp =>
        obtain ⟨sid, part⟩ := sp
        cases hrd : g.p2.receiveDamage sid part with
        | error ep =>
          simp only [hrd] at h
          simp at h
        | ok dp =>
          obtain ⟨destroyed, p2'⟩ := dp
          simp only [hrd, Except.ok.injEq, Prod.mk.injEq] at h
          obtain ⟨hres, hg'⟩ := h
          subst hg'
          obtain ⟨hpos, hdec, hkeep⟩ :=
            receiveDamage_count_facts g.p2 sid part destroyed p2' hwf hrd
          simp only [BattleShipGame.defender] at hpos ⊢
          rw [← hres]
          simp only [decide_eq_true_eq]
          cases destroyed with
          | true =>
            rw [hdec rfl]
            omega
          | false =>
            rw [hkeep rfl]
            omega
  | P2 =>
    simp only [BattleShipGame.attack] at h
    cases hba : g.p1Board.attack target with
    | error eb =>
      rw [hba] at h
      simp at h
    | ok rb =>
      obtain ⟨report, b'⟩ := rb
      simp only [hba] at h
      cases report with
      | none =>
        simp only [Except.ok.injEq, Prod.mk.injEq] at h
        obtain ⟨hres, hg'⟩ := h
        subst hg'
        simp only [BattleShipGame.defender] at hwf ⊢
        rw [← hres]
        simp only [Bool.false_eq_true, false_iff, not_and]
        intro h1
        omega
      | some sp =>
        obtain ⟨sid, part⟩ := sp
        cases hrd : g.p1.receiveDamage sid part with
        | error ep =>
          simp only [hrd] at h
          simp at h
        | ok dp =>
          obtain ⟨destroyed, p1'⟩ := dp
          simp only [hrd, Except.ok.injEq, Prod.mk.injEq] at h
          obtain ⟨hres, hg'⟩ := h
          subst hg'
          obtain ⟨hpos, hdec, hkeep⟩ :=
            receiveDamage_count_facts g.p1 sid part destroyed p1' hwf hrd
          simp only [BattleShipGame.defender] at hpos ⊢
          rw [← hres]
          simp only [decide_eq_true_eq]
          cases destroyed with
          | true =>
            rw [hdec rfl]
            omega
          | false =>
            rw [hkeep rfl]
            omega

/-- Witness for C5: the winning attack on the last ship of `lastShipGame`. -/
theorem game_attack_true_iff_last_ship_witness :
    true = true ↔
      ((lastShipGame.defender .P1).shipCount = 1 ∧
        (lastShipGameAfter.defender .P1).shipCount = 0) :=
  game_attack_true_iff_last_ship lastShipGame .P1 (0, 0) true lastShipGameAfter
    (by decide) (by decide)

/-- Unfolding of `damageResults` over a successful head call. -/
theorem damageResults_cons_ok (p : BattleShipPlayer) (sid part : Int) (rest : List Int)
    (d : Bool) (p' : BattleShipPlayer) (h : p.receiveDamage sid part = .ok (d, p')) :
    damageResults p sid (part :: rest) =
      (damageResults p' sid rest).map (fun l => (d, p'.shipCount) :: l) := by
  simp only [damageResults, h]

/-- Damage accumulation run: starting from a ship whose remaining undamaged,
pairwise-distinct parts are exactly `parts`, every call succeeds, each call
but the last reports destroyed=false with the counter untouched, and the last
call reports destroyed=true and decrements the counter. -/
theorem damageResults_run (parts : List Int) :
    ∀ (p : BattleShipPlayer) (sid : Int) (ship : ShipPiece) (n : Nat),
    p.ships[sid.toNat]? = some ship → 0 ≤ sid → sid < (p.ships.length : Int) →
    ship.size = some n → ship.damaged.length = n →
    ship.damage + parts.length = n →
    parts.Nodup →
    (∀ q ∈ parts, 0 ≤ q ∧ q < (n : Int) ∧ damagedAt ship q = false) →
    damageResults p sid parts =
      some (if parts = [] then []
        else List.replicate (parts.length - 1) (false, p.shipCount) ++
          [(true, p.shipCount - 1)]) := by
  induction parts with
  | nil =>
    intro p sid ship n hget hsid0 hsidlt hsz hlen hdn hnd hq
    simp [damageResults]
  | cons q rest ih =>
    intro p sid ship n hget hsid0 hsidlt hsz hlen hdn hnd hq
    obtain ⟨hq0, hqlt, hqfresh⟩ := hq q (List.mem_cons_self q rest)
    have hpge : partGeSize q ship.size = false := by
      unfold partGeSize
      rw [hsz]
      simp only [decide_eq_false_iff_not, not_le]
      exact hqlt
    have heval := BattleShipPlayer.receiveDamage_fresh p sid q ship hget hsid0 hsidlt
      hq0 hpge hqfresh
    rcases rest with _ | ⟨r, rest'⟩
    · have hdest : ship.size = some (ship.damage + 1) := by
        rw [hsz]
        simp only [List.length_cons, List.length_nil] at hdn
        simp only [Option.some.injEq]
        omega
      rw [if_pos hdest] at heval
      rw [damageResults_cons_ok p sid q _ true _ heval]
      simp [damageResults]
    · have hndest : ship.size ≠ some (ship.damage + 1) := by
        rw [hsz]
        simp only [List.length_cons] at hdn
        simp only [ne_eq, Option.some.injEq]
        omega
      rw [if_neg hndest] at heval
      rw [damageResults_cons_ok p sid q _ false _ heval]
      have htn : sid.toNat < p.ships.length := by omega
      have hfr : ∀ q' ∈ r :: rest', 0 ≤ q' ∧ q' < (n : Int) ∧
          damagedAt ⟨ship.id, ship.size, ship.orientation, ship.position,
            ship.damaged.set q.toNat true, ship.damage + 1⟩ q' = false := by
        intro q' hq'
        obtain ⟨hq'0, hq'lt, hq'fresh⟩ := hq q' (List.mem_cons_of_mem q hq')
        refine ⟨hq'0, hq'lt, ?_⟩
        have hne : q' ≠ q := by
          rintro rfl
          exact (List.nodup_cons.mp hnd).1 hq'
        unfold damagedAt at hq'fresh ⊢
        rw [if_neg (by omega)] at hq'fresh ⊢
        simp only
        rw [List.getElem?_set_ne (by omega)]
        exact hq'fresh
      have hih := ih ⟨p.playerId, p.ships.set sid.toNat
          ⟨ship.id, ship.size, ship.orientation, ship.position,
            ship.damaged.set q.toNat true, ship.damage + 1⟩, p.shipCount⟩ sid
        ⟨ship.id, ship.size, ship.orientation, ship.position,
          ship.damaged.set q.toNat true, ship.damage + 1⟩ n
        (List.getElem?_set_self htn)
        hsid0
        (by simp only [List.length_set]; exact hsidlt)
        hsz
        (by simp only [List.length_set]; exact hlen)
        (by simp only [List.length_cons] at hdn ⊢; omega)
        (List.Nodup.of_cons hnd)
        hfr
      rw [hih]
      simp [List.replicate_succ, Nat.add_sub_cancel]

/-- C6: `receiveDamage` fails with InvalidShipId outside the roster's range,
with InvalidPart when part ≥ ship.size, and with AlreadyDamaged when the part
is already marked; otherwise it marks the part, increments the ship's damage
counter, and reports destroyed — decrementing the live-ship counter — exactly
when the incremented damage reaches the size; and for a fresh ship of size N
whose N distinct parts are damaged in any order with no repeats, every call
but the Nth reports false with the counter untouched, and exactly the Nth
call reports true and decrements the counter. -/
theorem receiveDamage_spec (p : BattleShipPlayer) :
    (∀ sid part : Int, sid < 0 ∨ sid ≥ (p.ships.length : Int) →
      p.receiveDamage sid part = .error (.invalidShipId sid, p)) ∧
    (∀ (sid part : Int) (ship : ShipPiece), p.ships[sid.toNat]? = some ship →
      0 ≤ sid → sid < (p.ships.length : Int) → partGeSize part ship.size = true →
      p.receiveDamage sid part = .error (.invalidPart, p)) ∧
    (∀ (sid part : Int) (ship : ShipPiece), p.ships[sid.toNat]? = some ship →
      0 ≤ sid → sid < (p.ships.length : Int) → 0 ≤ part →
      partGeSize part ship.size = false → damagedAt ship part = true →
      p.receiveDamage sid part = .error (.alreadyDamaged part sid, p)) ∧
    (∀ (sid part : Int) (ship : ShipPiece), p.ships[sid.toNat]? = some ship →
      0 ≤ sid → sid < (p.ships.length : Int) → 0 ≤ part →
      partGeSize part ship.size = false → damagedAt ship part = false →
      p.receiveDamage sid part =
        (if ship.size = some (ship.damage + 1) then
          .ok (true, { p with
            ships := p.ships.set sid.toNat
              { ship with damaged := ship.damaged.set part.toNat true,
                          damage := ship.damage + 1 }
            shipCount := p.shipCount - 1 })
        else
          .ok (false, { p with
            ships := p.ships.set sid.toNat
              { ship with damaged := ship.damaged.set part.toNat true,
                          damage := ship.damage + 1 } }))) ∧
    (∀ (sid : Int) (ship : ShipPiece) (n : Nat) (parts : List Int),
      p.ships[sid.toNat]? = some ship → 0 ≤ sid → sid < (p.ships.length : Int) →
      ship.size = some n → ship.damage = 0 → ship.damaged = List.replicate n false →
      1 ≤ n → parts.length = n → parts.Nodup →
      (∀ q ∈ parts, 0 ≤ q ∧ q < (n : Int)) →
      damageResults p sid parts =
        some (List.replicate (parts.length - 1) (false, p.shipCount) ++
          [(true, p.shipCount - 1)])) := by
  refine ⟨?_, ?_, ?_, ?_, ?_⟩
  · intro sid part hbad
    exact BattleShipPlayer.receiveDamage_bad_id p sid part hbad
  · intro sid part ship hget hsid0 hsidlt hbad
    exact BattleShipPlayer.receiveDamage_bad_part p sid part ship hget hsid0 hsidlt
      (Or.inr hbad)
  · intro sid part ship hget hsid0 hsidlt hpart0 hpge hdmg
    exact BattleShipPlayer.receiveDamage_already p sid part ship hget hsid0 hsidlt
      hpart0 hpge hdmg
  · intro sid part ship hget hsid0 hsidlt hpart0 hpge hfresh
    exact BattleShipPlayer.receiveDamage_fresh p sid part ship hget hsid0 hsidlt
      hpart0 hpge hfresh
  · intro sid ship n parts hget hsid0 hsidlt hsz hd0 hrep h1 hplen hnd hb
    have hrun := damageResults_run parts p sid ship n hget hsid0 hsidlt hsz
      (by rw [hrep, List.length_replicate])
      (by rw [hd0, hplen]; omega)
      hnd
      (by intro q hqm
          obtain ⟨h0, hlt⟩ := hb q hqm
          refine ⟨h0, hlt, ?_⟩
          unfold damagedAt
          rw [if_neg (by omega), hrep]
          rcases hge : (List.replicate n false)[q.toNat]? with _ | v
          · simp
          · rw [List.eq_of_mem_replicate (List.getElem?_mem hge)]
            simp)
    rw [hrun, if_neg (by intro hc; rw [hc] at hplen; simp at hplen; omega)]

/-- Witness for C6 at a concrete player: an out-of-range ship id is rejected,
and the single-part run on the fresh size-1 ship destroys it on the first
call. -/
theorem receiveDamage_spec_witness :
    damagePlayer.receiveDamage 5 0 = .error (.invalidShipId 5, damagePlayer) ∧
    damageResults damagePlayer 0 [0] =
      some (List.replicate (([(0 : Int)].length) - 1) (false, damagePlayer.shipCount) ++
        [(true, damagePlayer.shipCount - 1)]) :=
  ⟨(receiveDamage_spec damagePlayer).1 5 0 (by decide),
   (receiveDamage_spec damagePlayer).2.2.2.2 0 damageShip 1 [0] (by decide) (by decide)
     (by decide) (by decide) (by decide) (by decide) (by decide) (by decide) (by decide)
     (by decide)⟩

/-- C10: an UNSELECT received while selected with no pending position emits
exactly one settle-back-down command (SettleShip in crafting, SettlePin in
battle), performs no call into the game model (the game value is returned
untouched), emits no control signal, clears `selected` and leaves every other
field of the RulesState unchanged. -/
theorem unselect_without_position_lays_down (g : BattleShipGame) :
    (∀ s : ShipCraftState, s.selected = true → s.pos = none →
      BattleShipRules.apply (.shipCraft s) .unselect g =
        ([.settleShip], [], .shipCraft { s with selected := false }, g)) ∧
    (∀ s : BattleState, s.selected = true → s.pos = none →
      BattleShipRules.apply (.battle s) .unselect g =
        ([.settlePin], [], .battle { s with selected := false }, g)) := by
  constructor
  · intro s hsel hpos
    simp only [BattleShipRules.apply, processUnselect, hsel, hpos, if_true]
    simp only [generateControls, BattleShipState.kind, BattleShipState.player]
    cases hp : s.player <;> simp
  · intro s hsel hpos
    simp only [BattleShipRules.apply, processUnselect, hsel, hpos, if_true]
    simp only [generateControls, BattleShipState.kind, BattleShipState.player]
    simp

/-- Witness for C10 at concrete crafting and battle states. -/
theorem unselect_without_position_lays_down_witness :
    BattleShipRules.apply
        (.shipCraft ⟨.P1, true, [1], 1, .HORIZONTAL, none⟩)
        .unselect (BattleShipGame.init defaultSettings) =
      ([.settleShip], [],
        .shipCraft ⟨.P1, false, [1], 1, .HORIZONTAL, none⟩,
        BattleShipGame.init defaultSettings) ∧
    BattleShipRules.apply (.battle ⟨.P1, true, none⟩)
        .unselect (BattleShipGame.init defaultSettings) =
      ([.settlePin], [], .battle ⟨.P1, false, none⟩,
        BattleShipGame.init defaultSettings) :=
  ⟨(unselect_without_position_lays_down (BattleShipGame.init defaultSettings)).1
      ⟨.P1, true, [1], 1, .HORIZONTAL, none⟩ rfl rfl,
   (unselect_without_position_lays_down (BattleShipGame.init defaultSettings)).2
      ⟨.P1, true, none⟩ rfl rfl⟩

/-- C1 counterexample: at a selected crafting state with pending position
(0, 9) and current size 3, the settle fails, one Error command carrying the
context is emitted — but the state after the event has `selected = false`,
so the RulesState is NOT left exactly as it was and selection does not remain
pending. -/
theorem unselect_failure_unselects_counterexample :
    (BattleShipRules.apply (.shipCraft cexCraftState) .unselect
        (BattleShipGame.init defaultSettings)).1 =
      [.errorCmd (settleErrorLog .P1 (some 3) .HORIZONTAL (0, 9)
        (.extentOutOfBounds 0 3))] ∧
    (BattleShipRules.apply (.shipCraft cexCraftState) .unselect
        (BattleShipGame.init defaultSettings)).2.2.1 =
      .shipCraft { cexCraftState with selected := false } ∧
    BattleShipState.shipCraft { cexCraftState with selected := false } ≠
      .shipCraft cexCraftState := by decide

/-- C1 (amended): when the settle attempted by an UNSELECT in ShipCrafting
fails, exactly one Error command is emitted, carrying the player, size,
orientation, position and the underlying failure; the game model is left
unchanged, and the RulesState is left unchanged except that `selected` is set
to false — no phase advance and no size-cursor advance. -/
theorem unselect_settle_failure_spec (s : ShipCraftState) (g g' : BattleShipGame)
    (p : BoardPosition) (e : BSError)
    (hsel : s.selected = true) (hpos : s.pos = some p)
    (hfail : g.settleShip s.player s.shipSizeSequence[s.shipSizeIterator]? s.orientation p
      = .error (e, g')) :
    BattleShipRules.apply (.shipCraft s) .unselect g =
      ([.errorCmd (settleErrorLog s.player s.shipSizeSequence[s.shipSizeIterator]?
          s.orientation p e)], [], .shipCraft { s with selected := false }, g) ∧
    g' = g := by
  have hg : g' = g := BattleShipGame.settleShip_error_game_eq g s.player _ s.orientation p e g' hfail
  subst hg
  refine ⟨?_, rfl⟩
  simp only [BattleShipRules.apply, processUnselect, hsel, hpos, if_true, hfail]
  simp only [generateControls, BattleShipState.kind, BattleShipState.player]
  cases hp : s.player <;> simp

/-- Witness for the amended C1 at the concrete failing state of the
counterexample. -/
theorem unselect_settle_failure_spec_witness :
    BattleShipRules.apply (.shipCraft cexCraftState) .unselect
        (BattleShipGame.init defaultSettings) =
      ([.errorCmd (settleErrorLog cexCraftState.player
          cexCraftState.shipSizeSequence[cexCraftState.shipSizeIterator]?
          cexCraftState.orientation (0, 9) (.extentOutOfBounds 0 3))], [],
        .shipCraft { cexCraftState with selected := false },
        BattleShipGame.init defaultSettings) ∧
    BattleShipGame.init defaultSettings = BattleShipGame.init defaultSettings :=
  unselect_settle_failure_spec cexCraftState (BattleShipGame.init defaultSettings)
    (BattleShipGame.init defaultSettings) (0, 9) (.extentOutOfBounds 0 3)
    (by decide) (by decide) (by decide)

/-- C2 (code bug): under the canonical settings the size sequence is
[1, 1, 3, 3, 5]; `init()` announces MakeShip(1) and advances the iterator,
the first commit settles seq[1] = 1 and announces MakeShip(1) again, and the
second commit — whose most recent MakeShip announced size 1 — calls
`game.settleShip` with size 3 (seq[2]): the sizes settled are shifted one
ahead of the sizes announced. -/
theorem commit_settles_size_ahead_of_announced :
    traceInitCmds = [.makeShip 1] ∧
    traceCommit1.1 = [.settleShip, .makeShip 1] ∧
    traceCommit2.2.2.2.p1.ships.map (fun sh => sh.size) = [some 1, some 3] := by decide

/-- In GameOver every event produces no commands, no controls, and leaves the
state and the game unchanged. -/
theorem gameOver_absorbing (w : PLAYER) (ev : BattleShipEvent) (g : BattleShipGame) :
    BattleShipRules.apply (.gameOver w) ev g = ([], [], .gameOver w, g) := by
  cases ev <;>
    simp [BattleShipRules.apply, processSelect, processRotate, processMove,
      processUnselect, generateControls, BattleShipState.kind]

/-- Single-step phase movement: an event never decreases the phase rank and
never advances it by more than one (Crafting can only reach Battle, Battle
only GameOver). -/
theorem apply_phase_step (st : BattleShipState) (ev : BattleShipEvent) (g : BattleShipGame) :
    phaseRank st ≤ phaseRank (BattleShipRules.apply st ev g).2.2.1 ∧
    phaseRank (BattleShipRules.apply st ev g).2.2.1 ≤ phaseRank st + 1 := by
  cases ev <;> rcases st with s | s | w <;>
    simp only [BattleShipRules.apply, processSelect, processRotate, processMove,
      processUnselect] <;>
    (repeat' split) <;> simp [phaseRank]

/-- Phase monotonicity over whole traces. -/
theorem applyAll_phase_mono (evs : List BattleShipEvent) :
    ∀ (st : BattleShipState) (g : BattleShipGame),
      phaseRank st ≤ phaseRank (applyAll st g evs).1 := by
  induction evs with
  | nil =>
    intro st g
    simp [applyAll]
  | cons e rest ih =>
    intro st g
    have hstep := (apply_phase_step st e g).1
    rcases happ : BattleShipRules.apply st e g with ⟨c, ctl, st', g'⟩
    rw [happ] at hstep
    simp only [applyAll, happ]
    exact le_trans hstep (ih st' g')

/-- C9: phase transitions are one-way — a step from ShipCrafting can only
stay or move to Battle, a step from Battle can only stay or move to GameOver,
no event sequence ever lowers the phase, and in GameOver every event yields
an empty command list and leaves state and game unchanged. -/
theorem phase_transitions_one_way :
    (∀ (st : BattleShipState) (ev : BattleShipEvent) (g : BattleShipGame),
      phaseRank st ≤ phaseRank (BattleShipRules.apply st ev g).2.2.1 ∧
      phaseRank (BattleShipRules.apply st ev g).2.2.1 ≤ phaseRank st + 1) ∧
    (∀ (st : BattleShipState) (g : BattleShipGame) (evs : List BattleShipEvent),
      phaseRank st ≤ phaseRank (applyAll st g evs).1) ∧
    (∀ (w : PLAYER) (ev : BattleShipEvent) (g : BattleShipGame),
      BattleShipRules.apply (.gameOver w) ev g = ([], [], .gameOver w, g)) :=
  ⟨apply_phase_step, fun st g evs => applyAll_phase_mono evs st g, gameOver_absorbing⟩

end BattleShip
